import Mathlib

/-!
Shallow embedding of a schema-less Protocol Buffers wire-format decoder
(source file `odlh_protobuf_decode_.py`).

Buffers are lists of byte values (`List Nat`).  Python exceptions are
modelled by `Option` (`none` = an uncaught `IndexError` / `ValueError` /
`struct.error`) or by `Except DecodeError`.  The mutually recursive
message decoder is written with an explicit fuel parameter: the Python
code always terminates because every decoded field consumes at least one
byte of its buffer, so the fuel is purely an artifact of the embedding;
the top-level entry point supplies `buffer.length + 1`, and all general
theorems quantify over the fuel.
-/

namespace ProtoDecode

/-- Wire-type constants (source lines 4-7). -/
def WIRE_TYPE_VARINT : Nat := 0

/-- Wire type 1: 64-bit fixed. -/
def WIRE_TYPE_64BIT : Nat := 1

/-- Wire type 2: length-delimited. -/
def WIRE_TYPE_LENGTH_DELIMITED : Nat := 2

/-- Wire type 5: 32-bit fixed. -/
def WIRE_TYPE_32BIT : Nat := 5

/-- Render one byte as at least two lowercase hex digits (the Python format code 02x). -/
def byteToHex (b : Nat) : String :=
  let s := Nat.toDigits 16 b
  ⟨if s.length = 1 then '0' :: s else s⟩

/-- `buffer_to_pretty_hex` (source lines 171-172): space-separated lowercase hex dump. -/
def buffer_to_pretty_hex (buffer : List Nat) : String :=
  String.intercalate " " (buffer.map byteToHex)

/-- Worker for `_decode_varint` (source lines 48-60), acting on the bytes from the
current position on.  Returns the decoded value and the number of bytes consumed;
`none` models the `IndexError` raised by `buffer[pos]` past the end of the buffer. -/
def decodeVarintAux : List Nat → Nat → Nat → Option (Nat × Nat)
  | [], _, _ => none
  | byte :: rest, shift, result =>
    let result' := result ||| ((byte &&& 0x7F) <<< shift)
    if byte &&& 0x80 = 0 then
      some (result', 1)
    else
      match decodeVarintAux rest (shift + 7) result' with
      | none => none
      | some (v, c) => some (v, c + 1)

/-- `BufferReader._decode_varint(buffer, pos)` (source lines 48-60): decode a
base-128 varint starting at absolute position `pos`; returns the value and the
position just past the varint (the returned range `(start_pos, pos)` of the
source is recoverable from these two numbers). -/
def decodeVarint (buffer : List Nat) (pos : Nat) : Option (Nat × Nat) :=
  match decodeVarintAux (buffer.drop pos) 0 0 with
  | none => none
  | some (v, consumed) => some (v, pos + consumed)

/-- Cursor state of the `BufferReader` class (source lines 9-13). -/
structure BufferReader where
  buffer : List Nat
  offset : Nat
  saved_offset : Nat
deriving DecidableEq

/-- `BufferReader.left_bytes` (source lines 34-35). -/
def BufferReader.left_bytes (r : BufferReader) : Nat :=
  r.buffer.length - r.offset

/-- `BufferReader.read_varint` (source lines 15-17).  The source executes
`value, self.offset = self._decode_varint(self.buffer, self.offset)`, but
`_decode_varint` returns the 3-tuple `(result, pos, (start_pos, pos))`; the
two-name unpacking therefore raises `ValueError: too many values to unpack`
on every call, modelled here as `none`. -/
def BufferReader.read_varint (_ : BufferReader) : Option (Nat × BufferReader) :=
  none

/-- Big-endian 32-bit read, `struct.unpack_from` with format `>I` (source
line 29); only evaluated when at least four bytes are available at `pos`. -/
def beU32 (buffer : List Nat) (pos : Nat) : Nat :=
  match buffer.drop pos with
  | b0 :: b1 :: b2 :: b3 :: _ => ((b0 * 256 + b1) * 256 + b2) * 256 + b3
  | _ => 0

/-- `BufferReader.try_skip_grpc_header` (source lines 25-32).  Returns the
updated reader; `none` models the `IndexError` raised by `self.buffer[self.offset]`
when the offset is at (or past) the end of the buffer. -/
def BufferReader.try_skip_grpc_header (r : BufferReader) : Option BufferReader :=
  match r.buffer.get? r.offset with
  | none => none
  | some b =>
    if b = 0 ∧ 5 ≤ r.left_bytes then
      let length := beU32 r.buffer (r.offset + 1)
      let r2 : BufferReader := { r with offset := r.offset + 5 }
      if length > r2.left_bytes then some { r2 with offset := r.offset } else some r2
    else
      some r

/-- `interpret_as_signed_type` (source lines 159-163): zig-zag decoding. -/
def interpret_as_signed_type (n : Nat) : Int :=
  if n % 2 = 0 then
    ((n >>> 1 : Nat) : Int)
  else
    -(((n + 1) >>> 1 : Nat) : Int)

/-- `interpret_as_twos_complement` (source lines 165-169). -/
def interpret_as_twos_complement (n : Nat) (bits : Nat) : Int :=
  if (n >>> (bits - 1)) &&& 1 = 1 then
    (n : Int) - ((1 <<< bits : Nat) : Int)
  else
    (n : Int)

/-- Reinterpret the low 32 bits as a signed twos-complement integer:
`struct.unpack` of format `<i` over `struct.pack` of `<I` (source line 66). -/
def unpackInt32 (v : Nat) : Int :=
  let m := v % 4294967296
  if m < 2147483648 then (m : Int) else (m : Int) - 4294967296

/-- Reinterpret the low 64 bits as a signed twos-complement integer:
`struct.unpack` of format `<q` over `struct.pack` of `<Q` (source line 67). -/
def unpackInt64 (v : Nat) : Int :=
  let m := v % 18446744073709551616
  if m < 9223372036854775808 then (m : Int) else (m : Int) - 18446744073709551616

/-- One varint candidate interpretation, a `{"type": ..., "value": ...}` dict. -/
structure VCand where
  type : String
  value : Int
deriving DecidableEq

/-- `decode_varint_parts` (source lines 62-78). -/
def decode_varint_parts (value : Nat) : List VCand :=
  let int32_value := unpackInt32 value
  let int64_value := unpackInt64 value
  let signed_value := interpret_as_signed_type value
  [⟨"uint", (value : Int)⟩]
    ++ (if int32_value ≠ (value : Int) then [⟨"int32", int32_value⟩] else [])
    ++ (if int64_value ≠ (value : Int) then [⟨"int64", int64_value⟩] else [])
    ++ (if signed_value ≠ (value : Int) then [⟨"sint", signed_value⟩] else [])

/-- Exact value of an IEEE-754 bit pattern: a rational for finite values,
or an infinity / NaN marker.  (A negative zero collapses to `finite 0`,
which no claim distinguishes.) -/
inductive FloatVal where
  | finite : ℚ → FloatVal
  | inf : Bool → FloatVal
  | nan : FloatVal
deriving DecidableEq

/-- IEEE-754 single-precision reinterpretation of a 32-bit pattern:
`struct.unpack` of format `<f` (source line 81). -/
def float32OfBits (v : Nat) : FloatVal :=
  let sign := (v >>> 31) &&& 1 = 1
  let ex := (v >>> 23) &&& 255
  let frac := v &&& 8388607
  if ex = 255 then
    if frac = 0 then .inf sign else .nan
  else
    let mag : ℚ :=
      if ex = 0 then (frac : ℚ) / (2 : ℚ) ^ (149 : ℕ)
      else (((2 ^ 23 + frac : ℕ) : ℚ) * (2 : ℚ) ^ ex) / (2 : ℚ) ^ (150 : ℕ)
    .finite (if sign then -mag else mag)

/-- IEEE-754 double-precision reinterpretation of a 64-bit pattern:
`struct.unpack` of format `<d` (source line 88). -/
def float64OfBits (v : Nat) : FloatVal :=
  let sign := (v >>> 63) &&& 1 = 1
  let ex := (v >>> 52) &&& 2047
  let frac := v &&& 4503599627370495
  if ex = 2047 then
    if frac = 0 then .inf sign else .nan
  else
    let mag : ℚ :=
      if ex = 0 then (frac : ℚ) / (2 : ℚ) ^ (1074 : ℕ)
      else (((2 ^ 52 + frac : ℕ) : ℚ) * (2 : ℚ) ^ ex) / (2 : ℚ) ^ (1075 : ℕ)
    .finite (if sign then -mag else mag)

/-- Value of a fixed32/fixed64 candidate: a float reinterpretation or the raw
unsigned integer. -/
inductive FixedVal where
  | flt : FloatVal → FixedVal
  | int : Nat → FixedVal
deriving DecidableEq

/-- One fixed32/fixed64 candidate interpretation. -/
structure FCand where
  type : String
  value : FixedVal
deriving DecidableEq

/-- `decode_fixed32` (source lines 80-85). -/
def decode_fixed32 (value : Nat) : List FCand :=
  [⟨"float", .flt (float32OfBits value)⟩, ⟨"int", .int value⟩]

/-- `decode_fixed64` (source lines 87-92). -/
def decode_fixed64 (value : Nat) : List FCand :=
  [⟨"double", .flt (float64OfBits value)⟩, ⟨"int", .int value⟩]

/-- Strict UTF-8 decoding of a byte list, as the Python `bytes.decode` method
with the utf-8 codec:
rejects stray continuation bytes, overlong encodings, surrogates and code
points above U+10FFFF; `none` models `UnicodeDecodeError`. -/
def utf8DecodeAux : List Nat → Option (List Char)
  | [] => some []
  | b :: rest =>
    if b ≤ 0x7F then
      (utf8DecodeAux rest).map (Char.ofNat b :: ·)
    else if b < 0xC2 then
      none
    else if b ≤ 0xDF then
      match rest with
      | c1 :: rest1 =>
        if 0x80 ≤ c1 ∧ c1 ≤ 0xBF then
          (utf8DecodeAux rest1).map (Char.ofNat ((b - 0xC0) * 64 + (c1 - 0x80)) :: ·)
        else none
      | _ => none
    else if b ≤ 0xEF then
      match rest with
      | c1 :: c2 :: rest2 =>
        if (0x80 ≤ c1 ∧ c1 ≤ 0xBF) ∧ (0x80 ≤ c2 ∧ c2 ≤ 0xBF)
            ∧ (b ≠ 0xE0 ∨ 0xA0 ≤ c1) ∧ (b ≠ 0xED ∨ c1 ≤ 0x9F) then
          (utf8DecodeAux rest2).map
            (Char.ofNat ((b - 0xE0) * 4096 + (c1 - 0x80) * 64 + (c2 - 0x80)) :: ·)
        else none
      | _ => none
    else if b ≤ 0xF4 then
      match rest with
      | c1 :: c2 :: c3 :: rest3 =>
        if (0x80 ≤ c1 ∧ c1 ≤ 0xBF) ∧ (0x80 ≤ c2 ∧ c2 ≤ 0xBF) ∧ (0x80 ≤ c3 ∧ c3 ≤ 0xBF)
            ∧ (b ≠ 0xF0 ∨ 0x90 ≤ c1) ∧ (b ≠ 0xF4 ∨ c1 ≤ 0x8F) then
          (utf8DecodeAux rest3).map
            (Char.ofNat ((b - 0xF0) * 262144 + (c1 - 0x80) * 4096 + (c2 - 0x80) * 64 + (c3 - 0x80)) :: ·)
        else none
      | _ => none
    else none

/-- Decode the payload slice as UTF-8, source line 99. -/
def utf8Decode (l : List Nat) : Option String :=
  (utf8DecodeAux l).map fun cs => ⟨cs⟩

/-- Little-endian unsigned value of the first `n` bytes of `l`
(`struct.unpack_from` with format `<Q` or `<I`; only evaluated when the
caller has checked that `n` bytes are available). -/
def leBytes : List Nat → Nat → Nat
  | _, 0 => 0
  | [], _ + 1 => 0
  | b :: t, n + 1 => b + 256 * leBytes t n

/-- `wire_type_to_string` (source lines 151-157). -/
def wire_type_to_string (wire_type : Nat) : String :=
  if wire_type = WIRE_TYPE_VARINT then "varint"
  else if wire_type = WIRE_TYPE_64BIT then "fixed64"
  else if wire_type = WIRE_TYPE_LENGTH_DELIMITED then "length_delimited"
  else if wire_type = WIRE_TYPE_32BIT then "fixed32"
  else "unknown"

/-- Errors escaping the decoding core: `IndexError`/`struct.error` on reads
past the end of the buffer, and the `ValueError` for an unsupported wire type. -/
inductive DecodeError where
  | outOfBounds
  | unsupportedWireType
deriving DecidableEq

mutual
/-- Content of a decoded field (the `value` placed in the field dict):
a varint candidate list, a fixed32/fixed64 candidate list, a UTF-8 string,
a recursively decoded nested message, or a raw-bytes hex fallback; the last
three carry the hex dump of the payload. -/
inductive Content where
  | vcands : List VCand → Content
  | fcands : List FCand → Content
  | str : String → String → Content
  | protobuf : List FieldInfo → String → Content
  | bytes : String → String → Content

/-- One decoded field record (`field_info` dict, source lines 133-139):
byte range (the Python code renders the pair as the string `"start-end"`),
field number, wire-type name, hex of the `original_value` span, content. -/
inductive FieldInfo where
  | mk : Nat × Nat → Nat → String → String → Content → FieldInfo
end

/-- Byte range of a field record. -/
def FieldInfo.byteRange : FieldInfo → Nat × Nat
  | .mk r _ _ _ _ => r

/-- Field number of a field record. -/
def FieldInfo.fieldNumber : FieldInfo → Nat
  | .mk _ n _ _ _ => n

/-- Wire-type name of a field record. -/
def FieldInfo.typeName : FieldInfo → String
  | .mk _ _ t _ _ => t

/-- `Original Hex` entry of a field record. -/
def FieldInfo.originalHex : FieldInfo → String
  | .mk _ _ _ h _ => h

/-- Content of a field record. -/
def FieldInfo.content : FieldInfo → Content
  | .mk _ _ _ _ c => c

mutual
/-- `decode_field(buffer, pos)` (source lines 108-141). -/
def decode_field : Nat → List Nat → Nat → Except DecodeError (FieldInfo × Nat)
  | 0, _, _ => .error .outOfBounds
  | fuel + 1, buffer, pos =>
    match decodeVarint buffer pos with
    | none => .error .outOfBounds
    | some (key, pos1) =>
      let field_number := key >>> 3
      let wire_type := key &&& 0x07
      let original_value := (buffer.drop pos).take (pos1 - pos)
      if wire_type = WIRE_TYPE_VARINT then
        match decodeVarint buffer pos1 with
        | none => .error .outOfBounds
        | some (v, pos2) =>
          .ok (.mk (pos, pos2) field_number (wire_type_to_string wire_type)
                (buffer_to_pretty_hex original_value) (.vcands (decode_varint_parts v)), pos2)
      else if wire_type = WIRE_TYPE_64BIT then
        if pos1 + 8 ≤ buffer.length then
          .ok (.mk (pos, pos1 + 8) field_number (wire_type_to_string wire_type)
                (buffer_to_pretty_hex original_value)
                (.fcands (decode_fixed64 (leBytes (buffer.drop pos1) 8))), pos1 + 8)
        else .error .outOfBounds
      else if wire_type = WIRE_TYPE_LENGTH_DELIMITED then
        match decode_length_delimited fuel buffer pos1 with
        | none => .error .outOfBounds
        | some (content, pos2) =>
          .ok (.mk (pos, pos2) field_number (wire_type_to_string wire_type)
                (buffer_to_pretty_hex original_value) content, pos2)
      else if wire_type = WIRE_TYPE_32BIT then
        if pos1 + 4 ≤ buffer.length then
          .ok (.mk (pos, pos1 + 4) field_number (wire_type_to_string wire_type)
                (buffer_to_pretty_hex original_value)
                (.fcands (decode_fixed32 (leBytes (buffer.drop pos1) 4))), pos1 + 4)
        else .error .outOfBounds
      else
        .error .unsupportedWireType

/-- `decode_length_delimited(buffer, pos)` (source lines 94-106).  The slice
`buffer[pos:pos + length]` silently truncates when `length` overshoots the
end of the buffer, exactly as in Python.  The `try/except` chain is the
payload classifier: UTF-8 string, then nested message, then raw bytes. -/
def decode_length_delimited : Nat → List Nat → Nat → Option (Content × Nat)
  | 0, _, _ => none
  | fuel + 1, buffer, pos =>
    match decodeVarint buffer pos with
    | none => none
    | some (length, pos1) =>
      let result := (buffer.drop pos1).take length
      match utf8Decode result with
      | some result_str =>
        some (.str result_str (buffer_to_pretty_hex result), pos1 + length)
      | none =>
        match decodeLoop fuel result 0 with
        | .ok nested_message =>
          some (.protobuf nested_message (buffer_to_pretty_hex result), pos1 + length)
        | .error _ =>
          some (.bytes (buffer_to_pretty_hex result) (buffer_to_pretty_hex result), pos1 + length)

/-- The `while pos < len(buffer)` loop of `decode_protobuf` (source lines
143-149), accumulating field records in encounter order. -/
def decodeLoop : Nat → List Nat → Nat → Except DecodeError (List FieldInfo)
  | 0, _, _ => .error .outOfBounds
  | fuel + 1, buffer, pos =>
    if pos < buffer.length then
      match decode_field fuel buffer pos with
      | .error e => .error e
      | .ok (field_info, pos2) =>
        match decodeLoop fuel buffer pos2 with
        | .error e => .error e
        | .ok rest => .ok (field_info :: rest)
    else .ok []
end

/-- `decode_protobuf(buffer)` (source lines 143-149).  Every field consumes at
least one byte, so fuel `buffer.length + 1` never runs out on the executions
the Python code performs. -/
def decode_protobuf (buffer : List Nat) : Except DecodeError (List FieldInfo) :=
  decodeLoop (buffer.length + 1) buffer 0

example : buffer_to_pretty_hex [10, 150, 255, 0] = "0a 96 ff 00" := by decide

example : decodeVarint [0x96, 0x01] 0 = some (150, 2) := by decide

example : utf8Decode [65, 66] = some "AB" := by decide

example : utf8Decode [0xFF] = none := by decide

example : decode_protobuf [] = .ok [] := rfl

/-- Membership in a conditional singleton. -/
lemma mem_ite_singleton {α : Type _} {a b : α} {p : Prop} [Decidable p] :
    a ∈ (if p then [b] else ([] : List α)) ↔ p ∧ a = b := by
  split <;> simp_all

/-- A singleton followed by three conditional singletons is a sublist of the
four-element list, whatever the conditions. -/
lemma singleton_append_ite_sublist {α : Type _} (u x y z : α) (p q r : Prop)
    [Decidable p] [Decidable q] [Decidable r] :
    List.Sublist
      ([u] ++ (if p then [x] else []) ++ (if q then [y] else []) ++ (if r then [z] else []))
      [u, x, y, z] := by
  by_cases hp : p <;> by_cases hq : q <;> by_cases hr : r <;>
    simp only [hp, hq, hr, if_true, if_false, ite_true, ite_false,
      List.singleton_append, List.nil_append, List.append_nil, List.cons_append] <;>
    repeat first
      | exact List.Sublist.slnil
      | exact List.nil_sublist _
      | apply List.Sublist.cons₂
      | apply List.Sublist.cons

/-- C3: for every value `V` decoded from a varint payload, the candidate list
begins with a `uint` candidate equal to `V`; the `int32`, `int64` and `sint`
candidates (twos-complement of the low 32 bits, of the 64 bits, and zig-zag)
are present exactly when they differ numerically from `V`; and the candidates
present appear in the fixed order uint, int32, int64, sint. -/
theorem varint_candidates_structure (v : Nat) :
    (decode_varint_parts v).head? = some ⟨"uint", (v : Int)⟩
    ∧ (⟨"int32", unpackInt32 v⟩ ∈ decode_varint_parts v ↔ unpackInt32 v ≠ (v : Int))
    ∧ (⟨"int64", unpackInt64 v⟩ ∈ decode_varint_parts v ↔ unpackInt64 v ≠ (v : Int))
    ∧ (⟨"sint", interpret_as_signed_type v⟩ ∈ decode_varint_parts v ↔
        interpret_as_signed_type v ≠ (v : Int))
    ∧ List.Sublist (decode_varint_parts v)
        [⟨"uint", (v : Int)⟩, ⟨"int32", unpackInt32 v⟩, ⟨"int64", unpackInt64 v⟩,
          ⟨"sint", interpret_as_signed_type v⟩] := by
  refine ⟨rfl, ?_, ?_, ?_, ?_⟩
  · by_cases h : unpackInt32 v = (v : Int) <;>
      simp [decode_varint_parts, mem_ite_singleton, h]
  · by_cases h : unpackInt64 v = (v : Int) <;>
      simp [decode_varint_parts, mem_ite_singleton, h]
  · by_cases h : interpret_as_signed_type v = (v : Int) <;>
      simp [decode_varint_parts, mem_ite_singleton, h]
  · simp only [decode_varint_parts]
    exact singleton_append_ite_sublist _ _ _ _ _ _ _

/-- C10: for every raw value from a fixed32 or fixed64 payload the candidate
list has exactly two entries in fixed order: the IEEE-754 reinterpretation
(float for fixed32, double for fixed64) first, then the raw unsigned integer,
with both entries present even when the two values are numerically equal. -/
theorem fixed_candidates_structure (v w : Nat) :
    (decode_fixed32 v).length = 2
    ∧ (decode_fixed32 v).get? 0 = some ⟨"float", .flt (float32OfBits v)⟩
    ∧ (decode_fixed32 v).get? 1 = some ⟨"int", .int v⟩
    ∧ (decode_fixed64 w).length = 2
    ∧ (decode_fixed64 w).get? 0 = some ⟨"double", .flt (float64OfBits w)⟩
    ∧ (decode_fixed64 w).get? 1 = some ⟨"int", .int w⟩ :=
  ⟨rfl, rfl, rfl, rfl, rfl, rfl⟩

/-- C2: a length-delimited payload that is entirely valid UTF-8 classifies as a
string (decoded text plus the raw hex dump), regardless of whether the same
bytes would also parse as a nested protobuf message — the conclusion holds for
every fuel, so the nested-decode branch is never consulted. -/
theorem utf8_payload_classifies_string (fuel : Nat) (buffer : List Nat)
    (pos length pos1 : Nat) (s : String)
    (hlen : decodeVarint buffer pos = some (length, pos1))
    (hutf8 : utf8Decode ((buffer.drop pos1).take length) = some s) :
    decode_length_delimited (fuel + 1) buffer pos =
      some (.str s (buffer_to_pretty_hex ((buffer.drop pos1).take length)), pos1 + length) := by
  simp only [decode_length_delimited, hlen, hutf8]

/-- C2 witness: the payload bytes `08 01` are valid UTF-8 and also a
well-formed protobuf message; the classifier still returns the string. -/
theorem utf8_payload_classifies_string_witness :
    decodeVarint [2, 8, 1] 0 = some (2, 1)
    ∧ utf8Decode (([2, 8, 1].drop 1).take 2) = some (String.mk [Char.ofNat 8, Char.ofNat 1])
    ∧ decode_length_delimited 1 [2, 8, 1] 0 =
        some (.str (String.mk [Char.ofNat 8, Char.ofNat 1]) "08 01", 1 + 2)
    ∧ decode_protobuf [8, 1] =
        .ok [.mk (0, 2) 1 "varint" "08" (.vcands [⟨"uint", 1⟩, ⟨"sint", -1⟩])] := by
  refine ⟨rfl, rfl, ?_, rfl⟩
  exact utf8_payload_classifies_string 0 [2, 8, 1] 0 2 1 (String.mk [Char.ofNat 8, Char.ofNat 1])
    rfl rfl

/-- C6: a length-delimited payload that is neither valid UTF-8 nor decodable as
a nested message classifies as `bytes` with the identical hex dump in both the
value and hex fields, and the classifier returns normally (`some`), so neither
internal failure escapes it. -/
theorem fallback_bytes_classification (fuel : Nat) (buffer : List Nat)
    (pos length pos1 : Nat) (e : DecodeError)
    (hlen : decodeVarint buffer pos = some (length, pos1))
    (hutf8 : utf8Decode ((buffer.drop pos1).take length) = none)
    (hnested : decodeLoop fuel ((buffer.drop pos1).take length) 0 = .error e) :
    decode_length_delimited (fuel + 1) buffer pos =
      some (.bytes (buffer_to_pretty_hex ((buffer.drop pos1).take length))
              (buffer_to_pretty_hex ((buffer.drop pos1).take length)), pos1 + length) := by
  simp only [decode_length_delimited, hlen, hutf8, hnested]

/-- C6 witness: payload `ff` is invalid UTF-8 and fails nested decoding, so the
field classifies as bytes with value and hex both `"ff"`. -/
theorem fallback_bytes_classification_witness :
    decodeVarint [1, 255] 0 = some (1, 1)
    ∧ utf8Decode (([1, 255].drop 1).take 1) = none
    ∧ decodeLoop 2 (([1, 255].drop 1).take 1) 0 = .error .outOfBounds
    ∧ decode_length_delimited 3 [1, 255] 0 = some (.bytes "ff" "ff", 1 + 1) := by
  refine ⟨rfl, rfl, rfl, ?_⟩
  exact fallback_bytes_classification 2 [1, 255] 0 1 1 .outOfBounds rfl rfl rfl

/-- C1 counterexample: buffer `0a 05 41` declares a 5-byte payload with only
one byte remaining; `decode_protobuf` does not fail with OutOfBounds but
returns a field record built from the silently truncated payload. -/
theorem oversized_length_no_error_example :
    decode_protobuf [10, 5, 65] =
        .ok [.mk (0, 7) 1 "length_delimited" "0a" (.str "A" "41")]
    ∧ decode_protobuf [10, 5, 65] ≠ .error .outOfBounds := by
  refine ⟨rfl, ?_⟩
  intro h
  rw [show decode_protobuf [10, 5, 65] =
      .ok [.mk (0, 7) 1 "length_delimited" "0a" (.str "A" "41")] from rfl] at h
  exact Except.noConfusion h

/-- C1 amended: when the declared payload length of a length-delimited field
exceeds the bytes remaining after the length varint, decoding does not fail:
the payload slice is silently truncated to the remaining bytes, the returned
position overshoots the buffer end, and the enclosing decode loop then stops
normally with what it has accumulated. -/
theorem oversized_length_truncates (fuel : Nat) (buffer : List Nat)
    (pos length pos1 : Nat)
    (hlen : decodeVarint buffer pos = some (length, pos1))
    (hover : buffer.length < pos1 + length) :
    (∃ c, decode_length_delimited (fuel + 1) buffer pos = some (c, pos1 + length))
    ∧ (buffer.drop pos1).take length = buffer.drop pos1
    ∧ (∀ f, decodeLoop (f + 1) buffer (pos1 + length) = .ok []) := by
  refine ⟨?_, ?_, ?_⟩
  · simp only [decode_length_delimited, hlen]
    cases hu : utf8Decode ((buffer.drop pos1).take length) with
    | some s => exact ⟨_, rfl⟩
    | none =>
      cases hn : decodeLoop fuel ((buffer.drop pos1).take length) 0 with
      | ok m => exact ⟨_, rfl⟩
      | error e => exact ⟨_, rfl⟩
  · apply List.take_of_length_le
    rw [List.length_drop]
    omega
  · intro f
    have hx : ¬ (pos1 + length < buffer.length) := by omega
    simp only [decodeLoop]
    rw [if_neg hx]

/-- C1 witness for the amended theorem, at the input of the counterexample. -/
theorem oversized_length_truncates_witness :
    decodeVarint [10, 5, 65] 1 = some (5, 2)
    ∧ ([10, 5, 65] : List Nat).length < 2 + 5
    ∧ (∃ c, decode_length_delimited 1 [10, 5, 65] 1 = some (c, 2 + 5)) := by
  refine ⟨rfl, by decide, ?_⟩
  exact (oversized_length_truncates 0 [10, 5, 65] 1 5 2 rfl (by decide)).1

/-- C7: a tag whose wire-type bits (low three bits) are none of 0, 1, 2, 5
makes `decode_field` fail with UnsupportedWireType, and the failure propagates
through the decode loop, aborting the enclosing decode. -/
theorem unsupported_wire_type_aborts (fuel : Nat) (buffer : List Nat)
    (pos key pos1 : Nat)
    (hk : decodeVarint buffer pos = some (key, pos1))
    (h0 : key &&& 0x07 ≠ WIRE_TYPE_VARINT)
    (h1 : key &&& 0x07 ≠ WIRE_TYPE_64BIT)
    (h2 : key &&& 0x07 ≠ WIRE_TYPE_LENGTH_DELIMITED)
    (h5 : key &&& 0x07 ≠ WIRE_TYPE_32BIT) :
    decode_field (fuel + 1) buffer pos = .error .unsupportedWireType
    ∧ (pos < buffer.length →
        decodeLoop (fuel + 2) buffer pos = .error .unsupportedWireType) := by
  have hf : decode_field (fuel + 1) buffer pos = .error .unsupportedWireType := by
    simp only [decode_field, hk]
    rw [if_neg h0, if_neg h1, if_neg h2, if_neg h5]
  refine ⟨hf, fun hlt => ?_⟩
  simp only [decodeLoop]
  rw [if_pos hlt, hf]

/-- C7 witness: the single tag byte `03` has wire type 3; the whole top-level
decode fails with UnsupportedWireType and returns no field list. -/
theorem unsupported_wire_type_aborts_witness :
    decodeVarint [3] 0 = some (3, 1)
    ∧ decode_field 1 [3] 0 = .error .unsupportedWireType
    ∧ decodeLoop 2 [3] 0 = .error .unsupportedWireType
    ∧ decode_protobuf [3] = .error .unsupportedWireType := by
  have h := unsupported_wire_type_aborts 0 [3] 0 3 1 rfl (by decide) (by decide) (by decide)
    (by decide)
  exact ⟨rfl, h.1, h.2 (by decide), rfl⟩

/-- C4 counterexample: for buffer `08 96 01` the decoded field spans bytes 0-3,
but its Original Hex is `"08"`, the tag byte alone, not the full span
`"08 96 01"`. -/
theorem original_hex_tag_only_example :
    decode_field 1 [8, 150, 1] 0 =
        .ok (.mk (0, 3) 1 "varint" "08" (.vcands [⟨"uint", 150⟩, ⟨"sint", 75⟩]), 3)
    ∧ buffer_to_pretty_hex [8, 150, 1] = "08 96 01"
    ∧ ("08" : String) ≠ "08 96 01" :=
  ⟨rfl, rfl, by decide⟩

/-- C4 amended: the Original Hex of every successfully decoded field is the hex
dump of exactly the bytes of the tag varint (the span from the field start to the
end of the tag), excluding payload and length-prefix bytes. -/
theorem original_hex_is_tag_span (fuel : Nat) (buffer : List Nat)
    (pos key pos1 pos2 : Nat) (fi : FieldInfo)
    (hk : decodeVarint buffer pos = some (key, pos1))
    (hf : decode_field (fuel + 1) buffer pos = .ok (fi, pos2)) :
    fi.originalHex = buffer_to_pretty_hex ((buffer.drop pos).take (pos1 - pos)) := by
  simp only [decode_field, hk] at hf
  repeat' split at hf
  all_goals first
    | exact Except.noConfusion hf
    | (injection hf with h1
       injection h1 with hfi hpos
       subst hfi
       rfl)

/-- C4 witness for the amended theorem. -/
theorem original_hex_is_tag_span_witness :
    decodeVarint [8, 150, 1] 0 = some (8, 1)
    ∧ decode_field 1 [8, 150, 1] 0 =
        .ok (.mk (0, 3) 1 "varint" "08" (.vcands [⟨"uint", 150⟩, ⟨"sint", 75⟩]), 3)
    ∧ (FieldInfo.mk (0, 3) 1 "varint" "08"
          (.vcands [⟨"uint", 150⟩, ⟨"sint", 75⟩])).originalHex
        = buffer_to_pretty_hex (([8, 150, 1].drop 0).take (1 - 0)) := by
  refine ⟨rfl, rfl, ?_⟩
  exact original_hex_is_tag_span 0 [8, 150, 1] 0 8 1 3 _ rfl rfl

/-- C5 counterexample: in buffer `12 03 08 ff 01` the nested payload occupies
top-level offsets 2..5 and its single field spans the whole payload, yet the
byte range of the nested record is `(0, 3)` — slice-relative, not the top-level
span `(2, 5)`. -/
theorem nested_range_slice_relative_example :
    decode_protobuf [18, 3, 8, 255, 1] =
        .ok [.mk (0, 5) 2 "length_delimited" "12"
          (.protobuf [.mk (0, 3) 1 "varint" "08" (.vcands [⟨"uint", 255⟩, ⟨"sint", -128⟩])]
            "08 ff 01")]
    ∧ ([18, 3, 8, 255, 1] : List Nat).drop 2 = [8, 255, 1]
    ∧ ((0, 3) : Nat × Nat) ≠ (2, 5) :=
  ⟨rfl, rfl, by decide⟩

/-- C5 amended: the classification of a length-delimited payload — including
every byte range inside a recursively decoded nested message — depends only on
the payload bytes, not on where the payload sits in the enclosing buffer:
nested ranges are offsets into the payload slice, decoded with fresh offset
state from 0. -/
theorem nested_content_position_independent (fuel : Nat)
    (b1 : List Nat) (p1 len1 q1 : Nat) (b2 : List Nat) (p2 len2 q2 : Nat)
    (h1 : decodeVarint b1 p1 = some (len1, q1))
    (h2 : decodeVarint b2 p2 = some (len2, q2))
    (hs : (b1.drop q1).take len1 = (b2.drop q2).take len2) :
    (decode_length_delimited (fuel + 1) b1 p1).map (fun x => x.1) =
      (decode_length_delimited (fuel + 1) b2 p2).map (fun x => x.1) := by
  simp only [decode_length_delimited, h1, h2, hs]
  cases hu : utf8Decode ((b2.drop q2).take len2) with
  | some s => simp [hu]
  | none =>
    cases hn : decodeLoop fuel ((b2.drop q2).take len2) 0 with
    | ok m => simp [hu, hn]
    | error e => simp [hu, hn]

/-- C5 witness: the same payload bytes `08 ff 01` read at different positions
of different buffers classify identically. -/
theorem nested_content_position_independent_witness :
    decodeVarint [18, 3, 8, 255, 1] 1 = some (3, 2)
    ∧ decodeVarint [3, 8, 255, 1] 0 = some (3, 1)
    ∧ (decode_length_delimited 3 [18, 3, 8, 255, 1] 1).map (fun x => x.1) =
        (decode_length_delimited 3 [3, 8, 255, 1] 0).map (fun x => x.1) := by
  refine ⟨rfl, rfl, ?_⟩
  exact nested_content_position_independent 2 [18, 3, 8, 255, 1] 1 3 2 [3, 8, 255, 1] 0 3 1
    rfl rfl rfl

/-- C8: `try_skip_grpc_header` is not failure-free: with the cursor at the end
of the buffer (in particular on an empty buffer) the read `buffer[offset]`
raises IndexError (modelled as `none`), instead of leaving the offset
unchanged; away from the end it behaves as claimed (commit on a fitting
declared length, rollback otherwise). -/
theorem try_skip_grpc_header_raises_at_end :
    BufferReader.try_skip_grpc_header ⟨[], 0, 0⟩ = none
    ∧ BufferReader.try_skip_grpc_header ⟨[1, 2, 3], 3, 0⟩ = none
    ∧ BufferReader.try_skip_grpc_header ⟨[0, 0, 0, 0, 5, 8, 150, 1, 9, 9], 0, 0⟩ =
        some ⟨[0, 0, 0, 0, 5, 8, 150, 1, 9, 9], 5, 0⟩
    ∧ BufferReader.try_skip_grpc_header ⟨[0, 0, 0, 0, 255], 0, 0⟩ =
        some ⟨[0, 0, 0, 0, 255], 0, 0⟩
    ∧ BufferReader.try_skip_grpc_header ⟨[7, 1, 2], 0, 0⟩ = some ⟨[7, 1, 2], 0, 0⟩ :=
  ⟨rfl, rfl, rfl, rfl, rfl⟩

/-- C9: `BufferReader.read_varint` never returns a value — the source unpacks
the 3-tuple returned by `_decode_varint` into two names, raising ValueError on
every call — although the underlying `_decode_varint` itself does decode the
LEB128 varint `96 01` to 150 and advance past it. -/
theorem read_varint_always_raises :
    (∀ r : BufferReader, r.read_varint = none)
    ∧ decodeVarint [0x96, 0x01] 0 = some (150, 2) :=
  ⟨fun _ => rfl, rfl⟩

end ProtoDecode
